import Mathlib

/-!
Verification of the any2any conversion front-end (src/static/js/app.js).

The file shallowly embeds the conversion orchestration logic of the current
revision of `app.js` (the third script variant, lines 672-986): the capability
tables and resolver, the local conversion engine, the click-handler
orchestration, the remote submission handlers (current job-mode variant and the
legacy synchronous variant, lines 597-630), and the status polling loop.
JavaScript numbers occurring in percent arithmetic are modelled as rationals,
`Math.round` as `Int.floor (q + 1/2)`, and the falsy-coalescing `x || d`
idiom explicitly.  DOM writes are modelled as the data they display.
-/

/-- JavaScript `Math.round`: round half toward positive infinity. -/
def jsRound (q : ℚ) : ℤ := Int.floor (q + 1/2)

/-- JavaScript `x || d` for an optional string field: `undefined`, `null`
and the empty string are falsy and fall through to the default. -/
def jsOrStr (a : Option String) (b : String) : String :=
  match a with
  | some s => if s = "" then b else s
  | none => b

/-- JavaScript `x || d` where `x` is a plain string (e.g. `xhr.responseText`). -/
def jsOrRaw (s b : String) : String := if s = "" then b else s

/-- Truthiness of an optional string field (`undefined`/`null`/`""` are falsy). -/
def jsTruthyStr : Option String → Bool
  | some s => !(s == "")
  | none => false

/-- JavaScript `x || 0` for an optional numeric field (absent or 0 gives 0). -/
def jsOrZero : Option ℚ → ℚ
  | some q => q
  | none => 0

/-- JavaScript `toLowerCase` on one ASCII character (the format tokens and
extensions handled by the code are ASCII). -/
def lowerChar (c : Char) : Char :=
  if 65 ≤ c.toNat ∧ c.toNat ≤ 90 then Char.ofNat (c.toNat + 32) else c

/-- JavaScript `toLowerCase` on a string, character by character. -/
def lowerStr (s : String) : String := String.mk (s.toList.map lowerChar)

/-- Last `n` characters of a string (for the `/\.pdf$/i` suffix test). -/
def takeRightStr (s : String) (n : ℕ) : String :=
  String.mk (s.toList.drop (s.toList.length - n))

/-- The string without its last `n` characters. -/
def dropRightStr (s : String) (n : ℕ) : String :=
  String.mk (s.toList.take (s.toList.length - n))

/-- Helper for the regex `/\.[^.]+$/` on the reversed character list: returns
`some (reversed extension chars, reversed base chars)` when the string has a
final dot, scanning from the end of the name. -/
def revExtSplit : List Char → Option (List Char × List Char)
  | [] => none
  | c :: rest =>
      if c = '.' then some ([], rest)
      else
        match revExtSplit rest with
        | some (a, b) => some (c :: a, b)
        | none => none

/-- Embeds `extOf` (app.js line 711): the lower-cased extension after the last
dot, or `""` when there is no match of `/\.[^.]+$/` (no dot, or a trailing dot). -/
def extOf (name : String) : String :=
  match revExtSplit name.toList.reverse with
  | some (a, _) => if a.isEmpty then "" else lowerStr (String.mk a.reverse)
  | none => ""

/-- Embeds `name.replace(/\.[^.]+$/, "")` (app.js line 822): the name with its
final extension removed when the regex matches, the name unchanged otherwise. -/
def stripExt (name : String) : String :=
  match revExtSplit name.toList.reverse with
  | some (a, b) => if a.isEmpty then name else String.mk b.reverse
  | none => name

/-- JavaScript `[...new Set(l)]`: deduplication keeping first occurrences. -/
def jsSetDedup : List String → List String
  | [] => []
  | x :: xs => x :: jsSetDedup (xs.filter (fun y => y ≠ x))
termination_by l => l.length
decreasing_by
  simp only [List.length_cons]
  exact Nat.lt_succ_of_le (List.length_filter_le _ _)

/-- Input format table `IMAGE_IN` of the current variant (app.js line 689). -/
def IMAGE_IN : List String :=
  ["jpg", "jpeg", "png", "webp", "gif", "tiff", "bmp", "ico", "pdf"]

/-- Input format table `AV_IN` (app.js line 690). -/
def AV_IN : List String :=
  ["mp3", "wav", "aac", "flac", "ogg", "mp4", "mkv", "mov", "webm"]

/-- Input format table `DOC_IN` (app.js line 691). -/
def DOC_IN : List String :=
  ["pdf", "doc", "docx", "ppt", "pptx", "xls", "xlsx", "odt", "odp", "ods", "rtf", "txt"]

/-- Input format table `DATA_IN` (app.js line 692). -/
def DATA_IN : List String :=
  ["csv", "xlsx", "txt", "vcf", "srt", "vtt", "json", "yaml", "yml"]

/-- Output table `IMAGE_OUT = IMAGE_IN` (app.js line 694). -/
def IMAGE_OUT : List String := IMAGE_IN

/-- Output table `AV_OUT = AV_IN` (app.js line 695). -/
def AV_OUT : List String := AV_IN

/-- Output table `DOC_OUT` (app.js line 696). -/
def DOC_OUT : List String :=
  ["pdf", "docx", "pptx", "xlsx", "odt", "odp", "ods"]

/-- Output table `DATA_OUT` (app.js line 697). -/
def DATA_OUT : List String :=
  ["phonecsv", "csv", "vcf", "srt", "vtt", "csv_from_json", "json_from_csv",
   "json_from_yaml", "yaml_from_json"]

/-- Embeds the `LOCAL_OK` object (app.js lines 699-709): per source extension,
the set of locally reachable target formats; `none` for extensions with no
local-capability entry. -/
def localOK (ext : String) : Option (List String) :=
  if ext = "pdf" then some ["jpg", "png", "webp"]
  else if ext = "jpg" then some ["png", "webp"]
  else if ext = "jpeg" then some ["png", "webp"]
  else if ext = "png" then some ["jpg", "webp"]
  else if ext = "webp" then some ["jpg", "png"]
  else if ext = "bmp" then some ["jpg", "png", "webp"]
  else if ext = "gif" then some ["jpg", "png", "webp"]
  else if ext = "tiff" then some ["jpg", "png", "webp"]
  else if ext = "ico" then some ["png", "webp"]
  else none

/-- Embeds `canDoLocal` (app.js line 771):
`LOCAL_OK[srcExt]?.has(targetExt) || false`. -/
def canDoLocal (srcExt targetExt : String) : Bool :=
  ((localOK srcExt).map (fun s => s.contains targetExt)).getD false

/-- Embeds `guessCategory` of the current variant (app.js lines 713-720). -/
def guessCategory (ext : String) : String :=
  if ext = "pdf" then "doc"
  else if IMAGE_IN.contains ext then "image"
  else if AV_IN.contains ext then
    (if ["mp4", "mkv", "mov", "webm"].contains ext then "video" else "audio")
  else if DOC_IN.contains ext then "doc"
  else if DATA_IN.contains ext then "data"
  else "doc"

/-- Embeds `allTargetsFor` of the current variant (app.js lines 730-739). -/
def allTargetsFor (ext cat : String) : List String :=
  if ext = "pdf" then
    jsSetDedup ((IMAGE_OUT.filter (fun x => x ≠ "pdf")) ++ ["docx"])
  else if cat = "image" then IMAGE_OUT.filter (fun x => x ≠ ext)
  else if cat = "video" ∨ cat = "audio" then AV_OUT.filter (fun x => x ≠ ext)
  else if cat = "data" then DATA_OUT
  else DOC_OUT.filter (fun x => x ≠ ext)

/-- Image input table of the earliest script variant (app.js line 17). -/
def IMAGE_IN_early : List String := ["jpg", "jpeg", "png", "webp", "tiff", "bmp"]

/-- Embeds `allTargetsFor` of the earliest script variant (app.js lines 55-63),
which takes only the extension and returns `[]` for unknown extensions. -/
def allTargetsForEarly (ext : String) : List String :=
  if IMAGE_IN_early.contains ext then ["pdf", "docx"]
  else if ext = "pdf" then ["jpg", "png", "webp", "docx"]
  else []

/-- Raster targets of the local engine's branches (app.js lines 778, 810). -/
def rasterTargets : List String := ["jpg", "png", "webp"]

/-- Source extensions of the single-image local branch (app.js line 809). -/
def imageSrcs : List String :=
  ["jpg", "jpeg", "png", "webp", "gif", "tiff", "bmp", "ico"]

/-- Result of a successful local conversion: the derived filename, the archive
entry names in order (`some` on the paginated PDF path, `none` for a single
image), and the percent values written to the progress bar after each step. -/
structure LocalOut where
  filename : String
  entries : Option (List String)
  percents : List ℤ
deriving DecidableEq, Repr

/-- Embeds the rendering loop of `convertLocal`'s PDF branch (app.js lines
786-802).  Arguments: target token, total page count, the page index `i` of
the next iteration, the `done` counter so far, and the number of remaining
iterations.  Each iteration increments `done`, records the archive entry
`page-i.target` and the percent `Math.round((done/pages)*100)`. -/
def pdfRenderGo (target : String) (pages : ℕ) :
    ℕ → ℕ → ℕ → (List String × List ℤ)
  | _, _, 0 => ([], [])
  | i, done, remaining + 1 =>
      let doneNext := done + 1
      let pct := jsRound (((doneNext : ℚ) / (pages : ℚ)) * 100)
      let entry := "page-" ++ toString i ++ "." ++ target
      let rest := pdfRenderGo target pages (i + 1) doneNext remaining
      (entry :: rest.1, pct :: rest.2)

/-- Embeds `file.name.replace(/\.pdf$/i, "_target.zip")` (app.js line 805). -/
def pdfZipName (name target : String) : String :=
  if lowerStr (takeRightStr name 4) = ".pdf" then
    dropRightStr name 4 ++ "_" ++ target ++ ".zip"
  else name

/-- Embeds `convertLocal` (app.js lines 775-829).  `pages` models
`pdf.numPages` of the decoded document.  The PDF branch renders every page
into a zip archive; the image branch re-encodes a single bitmap (its bar
writes are 30, 60, 100); any other combination throws. -/
def convertLocal (name srcExt targetExt : String) (pages : ℕ) :
    Except String LocalOut :=
  if srcExt = "pdf" ∧ rasterTargets.contains targetExt then
    let rendered := pdfRenderGo targetExt pages 1 0 pages
    .ok { filename := pdfZipName name targetExt,
          entries := some rendered.1,
          percents := rendered.2 }
  else if imageSrcs.contains srcExt ∧ rasterTargets.contains targetExt then
    .ok { filename := stripExt name ++ "." ++ targetExt,
          entries := none,
          percents := [30, 60, 100] }
  else
    .error "Local conversion not supported for this format."

/-- Observable outcome of one run of the convert-button click handler:
how many times the server path was started (`xhr.send`), which local result
(if any) was displayed, and which local error (if any) was displayed as the
final result. -/
structure ClickOutcome where
  localEntered : Bool
  remoteStarts : ℕ
  localShown : Option LocalOut
  shownLocalError : Option String
deriving DecidableEq, Repr

/-- Embeds the convert-button click handler (app.js lines 862-968).  The
source extension is derived from the file name; the local path is entered
when the local toggle is checked and `canDoLocal` holds; `localAttempt`
models the settled promise of `await convertLocal(...)` (an `Except.error`
for a rejection of any kind).  On local success the handler displays the
result and returns; on local failure it logs a console warning and falls
through to the server path; otherwise it goes directly to the server path. -/
def clickHandler (localAllowed : Bool) (name target : String)
    (localAttempt : Except String LocalOut) : ClickOutcome :=
  let srcExt := extOf name
  if localAllowed && canDoLocal srcExt target then
    match localAttempt with
    | .ok out =>
        { localEntered := true, remoteStarts := 0,
          localShown := some out, shownLocalError := none }
    | .error _ =>
        { localEntered := true, remoteStarts := 1,
          localShown := none, shownLocalError := none }
  else
    { localEntered := false, remoteStarts := 1,
      localShown := none, shownLocalError := none }

/-- Fields of a parsed JSON submission-response body; absent fields are
`none` (JavaScript `undefined`). -/
structure ServerResp where
  job_id : Option String := none
  download : Option String := none
  filename : Option String := none
  detail : Option String := none
  process_time : Option String := none
deriving DecidableEq, Repr

/-- Outcome of the legacy synchronous response handler. -/
inductive LegacyOutcome where
  | doneArtifact (download : Option String) (filename : Option String)
      (ptime : Option String)
  | doneUnparsed
  | errorShown (msg : String)
deriving DecidableEq, Repr

/-- Embeds the legacy `xhr.onreadystatechange` handler (app.js lines 597-630):
HTTP 200 with a parsed body displays the artifact link; HTTP 200 with an
unparsable body displays a generic ready message; any other status displays
`data.detail || responseText || "HTTP <status>"` as an error. -/
def legacyResponseHandle (status : ℕ) (body : Option ServerResp)
    (responseText : String) : LegacyOutcome :=
  if status = 200 then
    match body with
    | some d => .doneArtifact d.download d.filename d.process_time
    | none => .doneUnparsed
  else
    let msg := jsOrRaw responseText ("HTTP " ++ toString status)
    let msg :=
      match body with
      | some d => jsOrStr d.detail msg
      | none => msg
    .errorShown msg

/-- Outcome of the current job-mode response handler. -/
inductive JobOutcome where
  | protocolError (msg : String)
  | startPolling (jobId : String)
  | errorShown (msg : String)
deriving DecidableEq, Repr

/-- Embeds the current `xhr.onreadystatechange` handler (app.js lines
916-964): on HTTP 200 or 202 the body is parsed (parse failure yields the
empty object); a falsy `job_id` displays "Unexpected server response." and
stops; otherwise polling starts for the job id.  Any other status displays
`detail || responseText || "HTTP <status>"`. -/
def jobResponseHandle (status : ℕ) (body : Option ServerResp)
    (responseText : String) : JobOutcome :=
  if status = 200 ∨ status = 202 then
    let data := body.getD {}
    if jsTruthyStr data.job_id then .startPolling (data.job_id.getD "")
    else .protocolError "Unexpected server response."
  else
    .errorShown
      (match body with
       | some d => jsOrStr d.detail (jsOrRaw responseText ("HTTP " ++ toString status))
       | none => jsOrRaw responseText ("HTTP " ++ toString status))

/-- Fields of a parsed job-status body from `/api/status/<jobId>`. -/
structure JobStatus where
  status : String
  percent : Option ℚ := none
  msg : Option String := none
  error : Option String := none
  download : Option String := none
  filename : Option String := none
deriving DecidableEq

/-- One observed outcome of a scheduled `poll` tick: either the fetch (or its
`.json()` / non-ok check) failed, or it produced a parsed status body. -/
inductive FetchOutcome where
  | fail
  | ok (s : JobStatus)
deriving DecidableEq

/-- Effect of one `poll` tick: continue polling (optionally having updated
the bar and status line), or stop with a terminal display. -/
inductive PollAction where
  | cont (display : Option (ℤ × String))
  | stopDone (download : Option String) (filename : String)
  | stopError (message : String)
deriving DecidableEq

/-- Embeds the percent relay of `poll` (app.js line 937):
`Math.max(0, Math.min(100, Math.round(s.percent || 0)))`. -/
def relayedPct (percent : Option ℚ) : ℤ :=
  max 0 (min 100 (jsRound (jsOrZero percent)))

/-- Embeds the status line of `poll` (app.js line 939):
`s.msg ? msg (pct%) : Processing… (pct%)`. -/
def statusLineText (msg : Option String) (pct : ℤ) : String :=
  if jsTruthyStr msg then
    msg.getD "" ++ " (" ++ toString pct ++ "%)"
  else
    "Processing… (" ++ toString pct ++ "%)"

/-- Embeds one execution of `poll` (app.js lines 932-953).  A rejected fetch,
a non-ok response or an unparsable body lands in the catch block, which
ignores the error and lets the next scheduled tick retry.  A parsed body
updates the bar and status line, then stops the interval on status "done"
(displaying the download link, `s.filename || "file"`) or "error"
(displaying `s.error || "Conversion failed."`). -/
def pollStep : FetchOutcome → PollAction
  | .fail => .cont none
  | .ok s =>
      let pct := relayedPct s.percent
      if s.status = "done" then
        .stopDone s.download (jsOrStr s.filename "file")
      else if s.status = "error" then
        .stopError (jsOrStr s.error "Conversion failed.")
      else
        .cont (some (pct, statusLineText s.msg pct))

/-- Runs the polling loop over a finite trace of tick outcomes: ticks repeat
until a tick clears the interval; `none` means the trace ended with the loop
still scheduled. -/
def runPoll : List FetchOutcome → Option PollAction
  | [] => none
  | o :: rest =>
      match pollStep o with
      | .cont _ => runPoll rest
      | a => some a

/-- A tick outcome that the code treats as terminal: a successfully fetched
status equal to "done" or "error". -/
def IsTerminalStatus (o : FetchOutcome) : Prop :=
  ∃ s, o = .ok s ∧ (s.status = "done" ∨ s.status = "error")

/-- Embeds the poll schedule `poll(); pollTimer = setInterval(poll, 1000)`
(app.js lines 954-955): the n-th status fetch starts n seconds after the
submission response, the first one immediately. -/
def pollScheduleMs (n : ℕ) : ℕ := n * 1000

/-- An absent percent field is relayed as the numeric value 0. -/
theorem relayedPct_none_eq : relayedPct (none : Option ℚ) = 0 := by
  have h : jsRound (jsOrZero none) = 0 := by
    rw [jsOrZero, jsRound, Int.floor_eq_iff]
    norm_num
  unfold relayedPct
  rw [h]
  decide

/-- The status line shown for percent 0 with no service message. -/
theorem statusLineText_none_zero : statusLineText none 0 = "Processing… (0%)" := by
  decide

/-- A poll tick continues the loop exactly when its outcome is not a
successfully fetched terminal ("done"/"error") status. -/
theorem pollStep_cont_iff (o : FetchOutcome) :
    (∃ d, pollStep o = PollAction.cont d) ↔ ¬ IsTerminalStatus o := by
  cases o with
  | fail => simp [pollStep, IsTerminalStatus]
  | ok s =>
      by_cases hd : s.status = "done"
      · simp [pollStep, hd, IsTerminalStatus]
      · by_cases he : s.status = "error"
        · simp [pollStep, hd, he, IsTerminalStatus]
        · simp [pollStep, hd, he, IsTerminalStatus]

/-- The polling loop is still running after a trace of ticks exactly when no
tick of the trace fetched a terminal status. -/
theorem runPoll_eq_none_iff (trace : List FetchOutcome) :
    runPoll trace = none ↔ ∀ o ∈ trace, ¬ IsTerminalStatus o := by
  induction trace with
  | nil => simp [runPoll]
  | cons o rest ih =>
      rw [List.forall_mem_cons]
      cases hpo : pollStep o with
      | cont d =>
          have hno : ¬ IsTerminalStatus o := (pollStep_cont_iff o).mp ⟨d, hpo⟩
          simp [runPoll, hpo, hno, ih]
      | stopDone dl f =>
          have hterm : IsTerminalStatus o := by
            by_contra hno
            obtain ⟨d, hd⟩ := (pollStep_cont_iff o).mpr hno
            rw [hpo] at hd
            exact PollAction.noConfusion hd
          simp [runPoll, hpo, hterm]
      | stopError m =>
          have hterm : IsTerminalStatus o := by
            by_contra hno
            obtain ⟨d, hd⟩ := (pollStep_cont_iff o).mpr hno
            rw [hpo] at hd
            exact PollAction.noConfusion hd
          simp [runPoll, hpo, hterm]

/-- Closed form of the PDF rendering loop: iteration j (1-based, page index
`i + j - 1`, done counter `done + j`) files entry `page-(i+j-1).target` and
reports `Math.round(((done+j)/pages)*100)`. -/
theorem pdfRenderGo_closed (t : String) (pages : ℕ) :
    ∀ (r i done : ℕ),
      pdfRenderGo t pages i done r =
        ((List.range' i r).map (fun p : ℕ => "page-" ++ toString p ++ "." ++ t),
         (List.range' (done + 1) r).map
           (fun p : ℕ => jsRound ((p : ℚ) / (pages : ℚ) * 100))) := by
  intro r
  induction r with
  | zero => intro i done; rfl
  | succ r ih =>
      intro i done
      simp only [pdfRenderGo]
      rw [ih (i + 1) (done + 1)]
      simp [List.range'_succ]

/-- C10: for every source extension e, `canDoLocal e e` is false — no
identity conversion is local-eligible, because no `LOCAL_OK` set contains
its own key (and extensions without an entry yield false). -/
theorem canDoLocal_no_identity (e : String) : canDoLocal e e = false := by
  unfold canDoLocal localOK
  split_ifs <;> subst_vars <;> rfl

/-- C3: the percent relayed to the progress display is the service percent
clamped to [0,100]: 137 is relayed as 100, -5 as 0, and every rational
input is relayed inside [0,100]. -/
theorem relayedPct_clamped :
    relayedPct (some 137) = 100 ∧
    relayedPct (some (-5)) = 0 ∧
    ∀ q : ℚ, 0 ≤ relayedPct (some q) ∧ relayedPct (some q) ≤ 100 := by
  refine ⟨?_, ?_, ?_⟩
  · have h : jsRound (jsOrZero (some 137)) = 137 := by
      rw [jsOrZero, jsRound, Int.floor_eq_iff]
      norm_num
    unfold relayedPct
    rw [h]
    decide
  · have h : jsRound (jsOrZero (some (-5))) = -5 := by
      rw [jsOrZero, jsRound, Int.floor_eq_iff]
      norm_num
    unfold relayedPct
    rw [h]
    decide
  · intro q
    unfold relayedPct
    exact ⟨le_max_left _ _, max_le (by norm_num) (min_le_left _ _)⟩

/-- C1: whenever the local path is taken (local allowed and the pair
local-eligible) and the local conversion fails for any reason, the click
handler starts the server attempt exactly once and never displays the local
failure as the final result. -/
theorem local_failure_always_falls_back (allowed : Bool) (name target err : String)
    (hA : allowed = true) (hL : canDoLocal (extOf name) target = true) :
    clickHandler allowed name target (.error err) =
      { localEntered := true, remoteStarts := 1,
        localShown := none, shownLocalError := none } := by
  subst hA
  simp [clickHandler, hL]

/-- Witness for C1: a local-eligible png→webp attempt whose local engine
rejects falls back to exactly one remote start with no surfaced local error. -/
theorem local_failure_always_falls_back_witness :
    (true : Bool) = true ∧
    canDoLocal (extOf "photo.png") "webp" = true ∧
    clickHandler true "photo.png" "webp" (.error "decode failed") =
      { localEntered := true, remoteStarts := 1,
        localShown := none, shownLocalError := none } :=
  ⟨rfl, by decide,
   local_failure_always_falls_back true "photo.png" "webp" "decode failed" rfl (by decide)⟩

/-- C5: the local engine is entered exactly when the local toggle is on and
`canDoLocal` holds; otherwise the handler goes directly to the remote path;
and `canDoLocal` returns false (it is a total function) for every extension
without a `LOCAL_OK` entry. -/
theorem localPath_gating :
    (∀ (allowed : Bool) (name target : String) (att : Except String LocalOut),
        (clickHandler allowed name target att).localEntered =
          (allowed && canDoLocal (extOf name) target)) ∧
    (∀ (allowed : Bool) (name target : String) (att : Except String LocalOut),
        (allowed && canDoLocal (extOf name) target) = false →
          clickHandler allowed name target att =
            { localEntered := false, remoteStarts := 1,
              localShown := none, shownLocalError := none }) ∧
    (∀ ext, localOK ext = none → ∀ t, canDoLocal ext t = false) := by
  refine ⟨?_, ?_, ?_⟩
  · intro allowed name target att
    by_cases h : (allowed && canDoLocal (extOf name) target) = true
    · cases att <;> simp [clickHandler, h]
    · simp [clickHandler, h]
  · intro allowed name target att h
    simp [clickHandler, h]
  · intro ext h t
    unfold canDoLocal
    rw [h]
    rfl

/-- Witness for C5: "deck.pptx"→pdf is not local-eligible (pptx has no
LOCAL_OK entry), so the handler goes directly to the remote path. -/
theorem localPath_gating_witness :
    (true && canDoLocal (extOf "deck.pptx") "pdf") = false ∧
    clickHandler true "deck.pptx" "pdf" (.error "never run") =
      { localEntered := false, remoteStarts := 1,
        localShown := none, shownLocalError := none } ∧
    localOK "pptx" = none ∧
    canDoLocal "pptx" "pdf" = false :=
  ⟨by decide,
   localPath_gating.2.1 true "deck.pptx" "pdf" (.error "never run") (by decide),
   rfl,
   localPath_gating.2.2 "pptx" rfl "pdf"⟩

/-- C7: a single-image local conversion from a supported image extension to
jpg/png/webp succeeds with the source's extension replaced by the target
extension, and on that success the handler displays the local result and
starts no remote request. -/
theorem local_image_success (name tgt : String) (pages : ℕ)
    (hs : imageSrcs.contains (extOf name) = true)
    (ht : rasterTargets.contains tgt = true)
    (hcl : canDoLocal (extOf name) tgt = true) :
    convertLocal name (extOf name) tgt pages =
      .ok { filename := stripExt name ++ "." ++ tgt,
            entries := none, percents := [30, 60, 100] } ∧
    clickHandler true name tgt (convertLocal name (extOf name) tgt pages) =
      { localEntered := true, remoteStarts := 0,
        localShown := some { filename := stripExt name ++ "." ++ tgt,
                             entries := none, percents := [30, 60, 100] },
        shownLocalError := none } := by
  have hnp : ¬ (extOf name = "pdf") := by
    intro h
    rw [h] at hs
    exact absurd hs (by decide)
  have hconv : convertLocal name (extOf name) tgt pages =
      .ok { filename := stripExt name ++ "." ++ tgt,
            entries := none, percents := [30, 60, 100] } := by
    unfold convertLocal
    rw [if_neg (by intro hc; exact hnp hc.1), if_pos ⟨hs, ht⟩]
  refine ⟨hconv, ?_⟩
  rw [hconv]
  simp [clickHandler, hcl]

/-- Witness for C7: "photo.png" → webp yields filename "photo.webp" with no
remote start. -/
theorem local_image_success_witness :
    imageSrcs.contains (extOf "photo.png") = true ∧
    rasterTargets.contains "webp" = true ∧
    canDoLocal (extOf "photo.png") "webp" = true ∧
    clickHandler true "photo.png" "webp"
        (convertLocal "photo.png" (extOf "photo.png") "webp" 1) =
      { localEntered := true, remoteStarts := 0,
        localShown := some { filename := "photo.webp",
                             entries := none, percents := [30, 60, 100] },
        shownLocalError := none } := by
  refine ⟨by decide, by decide, by decide, ?_⟩
  have h := (local_image_success "photo.png" "webp" 1 (by decide) (by decide) (by decide)).2
  rw [h]
  decide

/-- C8 counterexample: for the unknown extension "xyz" the current resolver
assigns category "doc" but returns the full document target catalog
`DOC_OUT`, not an empty target set as the claim states. -/
theorem unknown_ext_targets_nonempty :
    guessCategory "xyz" = "doc" ∧
    allTargetsFor "xyz" (guessCategory "xyz") = DOC_OUT ∧
    ¬ allTargetsFor "xyz" (guessCategory "xyz") = [] := by
  refine ⟨by decide, by decide, by decide⟩

/-- C8 (amended): every unknown or empty extension (not in any input-format
list) is assigned the default category "doc"; the current resolver then
returns the full document target catalog (the doc-target filter removes
nothing because the extension is unknown), while only the earliest variant's
resolver returns an empty target set; in neither variant does the system
fail. -/
theorem unknown_ext_default_doc (ext : String)
    (h1 : IMAGE_IN.contains ext = false)
    (h2 : AV_IN.contains ext = false)
    (h3 : DOC_IN.contains ext = false)
    (h4 : DATA_IN.contains ext = false)
    (h5 : IMAGE_IN_early.contains ext = false) :
    guessCategory ext = "doc" ∧
    allTargetsFor ext (guessCategory ext) = DOC_OUT ∧
    allTargetsForEarly ext = [] := by
  have hpdf : ¬ (ext = "pdf") := by
    intro h
    subst h
    exact absurd h3 (by decide)
  have h1' : ext ∉ IMAGE_IN := by simpa using h1
  have h2' : ext ∉ AV_IN := by simpa using h2
  have h3' : ext ∉ DOC_IN := by simpa using h3
  have h4' : ext ∉ DATA_IN := by simpa using h4
  have h5' : ext ∉ IMAGE_IN_early := by simpa using h5
  have hcat : guessCategory ext = "doc" := by
    simp [guessCategory, hpdf, h1', h2', h3', h4']
  refine ⟨hcat, ?_, ?_⟩
  · rw [hcat]
    unfold allTargetsFor
    rw [if_neg hpdf, if_neg (by decide), if_neg (by decide), if_neg (by decide)]
    apply List.filter_eq_self.mpr
    intro a ha
    simp only [ne_eq, decide_eq_true_eq]
    intro he
    apply h3'
    rw [← he]
    simp only [DOC_OUT, List.mem_cons] at ha
    rcases ha with rfl | rfl | rfl | rfl | rfl | rfl | rfl | ha
    · decide
    · decide
    · decide
    · decide
    · decide
    · decide
    · decide
    · exact absurd ha (by simp)
  · simp [allTargetsForEarly, h5', hpdf]

/-- Witness for C8 (amended) at the unknown extension "xyz". -/
theorem unknown_ext_default_doc_witness :
    IMAGE_IN.contains "xyz" = false ∧
    AV_IN.contains "xyz" = false ∧
    DOC_IN.contains "xyz" = false ∧
    DATA_IN.contains "xyz" = false ∧
    IMAGE_IN_early.contains "xyz" = false ∧
    guessCategory "xyz" = "doc" ∧
    allTargetsForEarly "xyz" = [] :=
  ⟨by decide, by decide, by decide, by decide, by decide,
   (unknown_ext_default_doc "xyz" (by decide) (by decide) (by decide)
      (by decide) (by decide)).1,
   (unknown_ext_default_doc "xyz" (by decide) (by decide) (by decide)
      (by decide) (by decide)).2.2⟩

/-- C9 counterexample: a polled status with an absent percent field is
relayed with the numeric percent 0 and the numeric status line
"Processing… (0%)", not with an indeterminate phase marker. -/
theorem poll_absent_percent_shows_zero :
    pollStep (.ok { status := "processing" }) =
      .cont (some (0, "Processing… (0%)")) := by
  simp only [pollStep]
  rw [relayedPct_none_eq]
  rw [if_neg (by decide), if_neg (by decide)]
  rw [statusLineText_none_zero]

/-- C9 (amended): when the percent field is absent the client treats it as 0
(`s.percent || 0`), so the relayed percent is the numeric value 0 and a
non-terminal status displays the numeric line `statusLineText s.msg 0`; no
indeterminate marker is produced by the polling loop. -/
theorem poll_absent_percent_numeric (s : JobStatus)
    (hp : s.percent = none) :
    relayedPct s.percent = 0 ∧
    (¬ s.status = "done" → ¬ s.status = "error" →
      pollStep (.ok s) = .cont (some (0, statusLineText s.msg 0))) := by
  have h0 : relayedPct s.percent = 0 := by
    rw [hp]
    exact relayedPct_none_eq
  refine ⟨h0, ?_⟩
  intro hd he
  simp only [pollStep]
  rw [h0, if_neg hd, if_neg he]

/-- Witness for C9 (amended): a queued status without percent polls on with
the numeric line "Processing… (0%)". -/
theorem poll_absent_percent_numeric_witness :
    ({ status := "queued" } : JobStatus).percent = none ∧
    ¬ ({ status := "queued" } : JobStatus).status = "done" ∧
    ¬ ({ status := "queued" } : JobStatus).status = "error" ∧
    pollStep (.ok { status := "queued" }) =
      .cont (some (0, statusLineText none 0)) :=
  ⟨rfl, by decide, by decide,
   (poll_absent_percent_numeric { status := "queued" } rfl).2 (by decide) (by decide)⟩

/-- C4: the legacy handler accepts the synchronous finished-artifact shape
on HTTP 200; the current job-mode handler accepts the asynchronous
job-identity shape on HTTP 200 or 202; and an HTTP-success response whose
body lacks a (truthy) job identity is reported by the job-mode handler as
the protocol error "Unexpected server response.", never as a silent
success. -/
theorem submission_response_shapes :
    (∀ (d : ServerResp) (rt : String),
        legacyResponseHandle 200 (some d) rt =
          .doneArtifact d.download d.filename d.process_time) ∧
    (∀ (st : ℕ) (body : Option ServerResp) (rt jid : String),
        (st = 200 ∨ st = 202) → (body.getD {}).job_id = some jid → ¬ jid = "" →
          jobResponseHandle st body rt = .startPolling jid) ∧
    (∀ (st : ℕ) (body : Option ServerResp) (rt : String),
        (st = 200 ∨ st = 202) → jsTruthyStr ((body.getD {}).job_id) = false →
          jobResponseHandle st body rt =
            .protocolError "Unexpected server response.") := by
  refine ⟨?_, ?_, ?_⟩
  · intro d rt
    simp [legacyResponseHandle]
  · intro st body rt jid hst hjid hne
    simp only [jobResponseHandle]
    rw [if_pos hst, hjid]
    simp [jsTruthyStr, hne]
  · intro st body rt hst hfalse
    simp only [jobResponseHandle]
    rw [if_pos hst, hfalse]
    rfl

/-- Witness for C4: a legacy 200 artifact body is accepted, a 202 job body
starts polling, and a 200 body carrying only a download link (no job id) is
a protocol error. -/
theorem submission_response_shapes_witness :
    legacyResponseHandle 200
        (some { download := some "/files/1", filename := some "out.pdf",
                process_time := some "2.0" }) "" =
      .doneArtifact (some "/files/1") (some "out.pdf") (some "2.0") ∧
    jobResponseHandle 202 (some { job_id := some "j42" }) "" =
      .startPolling "j42" ∧
    jobResponseHandle 200 (some { download := some "/files/1" }) "" =
      .protocolError "Unexpected server response." :=
  ⟨submission_response_shapes.1 _ "",
   submission_response_shapes.2.1 202 _ "" "j42" (Or.inr rfl) rfl (by decide),
   submission_response_shapes.2.2 200 _ "" (Or.inl rfl) rfl⟩

/-- C2: a failed status fetch produces no display and no terminal report and
never stops the loop; the loop stops exactly when some tick fetches a status
equal to "done" or "error" (any other status is non-terminal); and ticks run
at a fixed 1000 ms interval starting with an immediate first fetch. -/
theorem polling_discipline :
    pollStep .fail = .cont none ∧
    (∀ rest, runPoll (.fail :: rest) = runPoll rest) ∧
    (∀ trace, runPoll trace = none ↔ ∀ o ∈ trace, ¬ IsTerminalStatus o) ∧
    pollScheduleMs 0 = 0 ∧
    (∀ n, pollScheduleMs (n + 1) = pollScheduleMs n + 1000) := by
  refine ⟨rfl, ?_, runPoll_eq_none_iff, rfl, ?_⟩
  · intro rest
    rfl
  · intro n
    simp [pollScheduleMs, Nat.succ_mul]

/-- Witness for C2: two failed fetches and a "queued" status leave the loop
running; a failed fetch followed by a "done" status stops it with the
download display. -/
theorem polling_discipline_witness :
    runPoll [.fail, .fail, .ok { status := "queued" }] = none ∧
    runPoll [.fail, .ok { status := "done", download := some "/files/9",
                          filename := some "out.zip" }] =
      some (.stopDone (some "/files/9") "out.zip") := by
  constructor
  · apply (polling_discipline.2.2.1 _).mpr
    intro o ho
    simp only [List.mem_cons, List.not_mem_nil, or_false] at ho
    rcases ho with rfl | rfl | rfl
    · rintro ⟨s, hs, _⟩
      exact FetchOutcome.noConfusion hs
    · rintro ⟨s, hs, _⟩
      exact FetchOutcome.noConfusion hs
    · rintro ⟨s, hs, hde⟩
      rw [show (FetchOutcome.ok { status := "queued" } = .ok s) ↔
            ({ status := "queued" } : JobStatus) = s from by simp] at hs
      subst hs
      rcases hde with h | h <;> exact absurd h (by decide)
  · rw [polling_discipline.2.1]
    simp [runPoll, pollStep, jsOrStr]

/-- C6: a local PDF-to-image conversion of a `pages`-page document renders
pages 1..pages, reporting after page p the percent
`Math.round(p/pages*100)`, files one archive entry per page named
`page-p.<target>`, and derives the result filename by replacing the
case-insensitive ".pdf" suffix of the base name with
"_" ++ target ++ ".zip". -/
theorem convertLocal_pdf_pipeline (name tgt : String) (pages : ℕ)
    (ht : rasterTargets.contains tgt = true)
    (hn : lowerStr (takeRightStr name 4) = ".pdf") :
    convertLocal name "pdf" tgt pages =
      Except.ok
        { filename := dropRightStr name 4 ++ "_" ++ tgt ++ ".zip",
          entries := some ((List.range' 1 pages).map
            (fun p : ℕ => "page-" ++ toString p ++ "." ++ tgt)),
          percents := (List.range' 1 pages).map
            (fun p : ℕ => jsRound ((p : ℚ) / (pages : ℚ) * 100)) } := by
  unfold convertLocal
  rw [if_pos ⟨rfl, ht⟩]
  rw [pdfRenderGo_closed tgt pages pages 1 0]
  unfold pdfZipName
  rw [if_pos hn]

/-- Witness for C6: "report.pdf" → jpg with 3 pages gives the percent
sequence 33, 67, 100, entries page-1.jpg..page-3.jpg, and the archive name
"report_jpg.zip". -/
theorem convertLocal_pdf_pipeline_witness :
    rasterTargets.contains "jpg" = true ∧
    lowerStr (takeRightStr "report.pdf" 4) = ".pdf" ∧
    convertLocal "report.pdf" "pdf" "jpg" 3 =
      Except.ok
        { filename := "report_jpg.zip",
          entries := some ["page-1.jpg", "page-2.jpg", "page-3.jpg"],
          percents := [33, 67, 100] } := by
  refine ⟨by decide, by decide, ?_⟩
  have h := convertLocal_pdf_pipeline "report.pdf" "jpg" 3 (by decide) (by decide)
  rw [h]
  have e1 : jsRound (((1 : ℕ) : ℚ) / ((3 : ℕ) : ℚ) * 100) = 33 := by
    rw [jsRound, Int.floor_eq_iff]
    constructor <;> norm_num
  have e2 : jsRound (((2 : ℕ) : ℚ) / ((3 : ℕ) : ℚ) * 100) = 67 := by
    rw [jsRound, Int.floor_eq_iff]
    constructor <;> norm_num
  have e3 : jsRound (((3 : ℕ) : ℚ) / ((3 : ℕ) : ℚ) * 100) = 100 := by
    rw [jsRound, Int.floor_eq_iff]
    constructor <;> norm_num
  rw [show List.range' 1 3 = [1, 2, 3] from rfl]
  simp only [List.map_cons, List.map_nil, e1, e2, e3]
  rw [show dropRightStr "report.pdf" 4 ++ "_" ++ "jpg" ++ ".zip" =
        "report_jpg.zip" from by decide]
  rw [show ("page-" ++ toString 1 ++ "." ++ "jpg") = "page-1.jpg" from by decide,
      show ("page-" ++ toString 2 ++ "." ++ "jpg") = "page-2.jpg" from by decide,
      show ("page-" ++ toString 3 ++ "." ++ "jpg") = "page-3.jpg" from by decide]
